import Mathlib

/-!
Shallow embedding of the grid-layout / PDF page-packing core of the
glue-pictures repository (src/src/app/lib/pdf.ts), together with proofs of
the specification claims about it.

Real-number arithmetic of the source (JavaScript numbers) is modelled over
the rationals ℚ; pixel dimensions and cursor coordinates are natural
numbers; `Math.floor` is `Int.floor`, `Math.round` is `round`
(round-half-up, which coincides with JavaScript `Math.round` on the
non-negative values that occur here); `Math.max`/`Math.min` are `max`/`min`.
-/

namespace GluePictures

/-! ## JavaScript string primitives

The JavaScript `String.prototype` operations the source uses, modelled on
the underlying character list (Lean's own `String.trim`/`String.endsWith`
are semantically the same but are implemented with byte-position loops the
kernel cannot evaluate). -/

/-- JS `s.trim()`: the string with leading and trailing whitespace
removed. -/
def jsTrim (s : String) : String :=
  String.mk (((s.data.dropWhile Char.isWhitespace).reverse.dropWhile
    Char.isWhitespace).reverse)

/-- JS `s.endsWith(post)`: a suffix test on the character list. -/
def jsEndsWith (s post : String) : Bool := post.data.isSuffixOf s.data

/-! ## Page geometry derivation (generatePdf, pdf.ts lines 58–69)

All lengths are in points (the source converts the millimetre inputs to
points uniformly before this computation, so we parameterise directly by
the point values). -/

/-- `headerText.trim() ? 40 : 0` (pdf.ts line 58). -/
def headerSpace (headerText : String) : ℚ :=
  if jsTrim headerText ≠ "" then 40 else 0

/-- `Math.max(1, columns)` (pdf.ts line 60). -/
def safeColumns (columns : ℤ) : ℤ := max 1 columns

/-- `Math.max(40, (pageWidth - leftPaddingPt - rightPaddingPt - gutterPt*(safeColumns-1)) / safeColumns)`
(pdf.ts lines 61–64). -/
def cellWidth (pageWidth leftPad rightPad gutter : ℚ) (columns : ℤ) : ℚ :=
  max 40
    ((pageWidth - leftPad - rightPad - gutter * ((safeColumns columns : ℚ) - 1))
      / (safeColumns columns : ℚ))

/-- `cellHeight = cellWidth` (pdf.ts line 65). -/
def cellHeight (pageWidth leftPad rightPad gutter : ℚ) (columns : ℤ) : ℚ :=
  cellWidth pageWidth leftPad rightPad gutter columns

/-- `Math.max(1, Math.floor((pageHeight - headerSpace - verticalPaddingPt*2 + gutterPt) / (cellHeight + gutterPt)))`
(pdf.ts lines 66–69). -/
def rowsPerPage (pageWidth pageHeight leftPad rightPad verticalPad gutter : ℚ)
    (columns : ℤ) (headerText : String) : ℤ :=
  max 1
    (⌊(pageHeight - headerSpace headerText - verticalPad * 2 + gutter)
        / (cellHeight pageWidth leftPad rightPad gutter columns + gutter)⌋)

/-! ## Pagination loop (generatePdf, pdf.ts lines 85–137)

The loop state is the number of pages created so far and the grid cursor.
A placement is recorded as `(pageIndex, col, row)` with `pageIndex`
0-based. The step mirrors the loop body: a new page is started (cursor
reset) exactly when `row >= rowsPerPage`, the image is placed at the
cursor, then the cursor advances left-to-right, wrapping to the next row
when `col` reaches the column count. -/

structure PackState where
  pages : ℕ
  col : ℕ
  row : ℕ
  deriving DecidableEq

/-- One iteration of the placement loop (pdf.ts lines 98–136): the page
break (lines 98–102), the recorded cell `(pageIndex, col, row)`, and the
cursor advance (lines 132–136). -/
def packStep (cols rows : ℕ) (s : PackState) : PackState × (ℕ × ℕ × ℕ) :=
  let s1 := if rows ≤ s.row then PackState.mk (s.pages + 1) 0 0 else s
  let pos := (s1.pages - 1, s1.col, s1.row)
  let s2 := if cols ≤ s1.col + 1 then PackState.mk s1.pages 0 (s1.row + 1)
            else PackState.mk s1.pages (s1.col + 1) s1.row
  (s2, pos)

/-- Run the placement loop on `n` images, starting from one fresh page and
cursor `(0,0)` (pdf.ts lines 85–87), collecting the placements in order. -/
def packAll (cols rows : ℕ) : ℕ → PackState × List (ℕ × ℕ × ℕ)
  | 0 => (PackState.mk 1 0 0, [])
  | n + 1 =>
    let prev := packAll cols rows n
    let st := packStep cols rows prev.1
    (st.1, prev.2 ++ [st.2])

/-- Closed form for the cell assigned to the image with 0-based index `i`:
page `i / capacity`, then row-major position within the page. -/
def posOf (cols rows i : ℕ) : ℕ × ℕ × ℕ :=
  (i / (rows * cols), i % (rows * cols) % cols, i % (rows * cols) / cols)

lemma div_mod_of_lt (cap q r : ℕ) (hr : r < cap) :
    (q * cap + r) / cap = q ∧ (q * cap + r) % cap = r := by
  have hcap : 0 < cap := lt_of_le_of_lt (Nat.zero_le r) hr
  constructor
  · rw [Nat.add_comm, Nat.add_mul_div_right _ _ hcap, Nat.div_eq_of_lt hr,
      Nat.zero_add]
  · rw [Nat.add_comm, Nat.add_mul_mod_self_right, Nat.mod_eq_of_lt hr]

lemma advance_state (cols x p : ℕ) (hc : 0 < cols) :
    (if cols ≤ x % cols + 1 then PackState.mk p 0 (x / cols + 1)
     else PackState.mk p (x % cols + 1) (x / cols))
      = PackState.mk p ((x + 1) % cols) ((x + 1) / cols) := by
  have hm : x % cols < cols := Nat.mod_lt _ hc
  have hx := Nat.div_add_mod x cols
  by_cases h : cols ≤ x % cols + 1
  · have hme : x % cols + 1 = cols := le_antisymm hm h
    have hx1 : x + 1 = cols * (x / cols + 1) := by
      calc x + 1 = cols * (x / cols) + x % cols + 1 := by rw [hx]
        _ = cols * (x / cols) + (x % cols + 1) := Nat.add_assoc _ _ _
        _ = cols * (x / cols) + cols * 1 := by rw [hme, Nat.mul_one]
        _ = cols * (x / cols + 1) := by rw [← Nat.mul_add]
    rw [if_pos h, hx1, Nat.mul_mod_right, Nat.mul_div_cancel_left _ hc]
  · push_neg at h
    have hx1 : x + 1 = cols * (x / cols) + (x % cols + 1) := by
      rw [← Nat.add_assoc, hx]
    rw [if_neg (not_le.mpr h), hx1, Nat.mul_add_mod, Nat.mul_add_div hc,
      Nat.mod_eq_of_lt h, Nat.div_eq_of_lt h]
    simp

/-- Invariant of the placement loop: after `n ≥ 1` placements with
`capacity = rows * cols`, writing `n = q * capacity + r` with
`1 ≤ r ≤ capacity`, the loop has created `q + 1` pages, the cursor sits at
`(r % cols, r / cols)`, and the recorded placements are exactly
`posOf 0, …, posOf (n-1)`. -/
theorem packAll_inv (cols rows : ℕ) (hc : 0 < cols) (hr : 0 < rows)
    (n : ℕ) (hn : 1 ≤ n) :
    ∃ q r, n = q * (rows * cols) + r ∧ 1 ≤ r ∧ r ≤ rows * cols
      ∧ (packAll cols rows n).1 = PackState.mk (q + 1) (r % cols) (r / cols)
      ∧ (packAll cols rows n).2 = (List.range n).map (posOf cols rows) := by
  have hcap : 0 < rows * cols := Nat.mul_pos hr hc
  induction n, hn using Nat.le_induction with
  | base =>
    refine ⟨0, 1, by ring, le_refl 1, hcap, ?_, ?_⟩
    · show (packStep cols rows (PackState.mk 1 0 0)).1 = _
      rw [packStep]
      simp only [Nat.not_le.mpr hr, if_false, Nat.zero_add]
      have h := advance_state cols 0 1 hc
      simpa using h
    · show [] ++ [(packStep cols rows (PackState.mk 1 0 0)).2] = _
      rw [packStep]
      simp [posOf, Nat.not_le.mpr hr, List.range_succ]
  | succ n hn ih =>
    obtain ⟨q, r, hqr, hr1, hrcap, hstate, hlist⟩ := ih
    rcases eq_or_lt_of_le hrcap with hcase | hcase
    · -- the current page is full: `r = capacity`, a page break happens
      have hrow : r / cols = rows := by rw [hcase, Nat.mul_div_cancel _ hc]
      have hcol : r % cols = 0 := by rw [hcase, Nat.mul_mod_left]
      have hnq : n = (q + 1) * (rows * cols) := by
        rw [hqr, hcase]; ring
      have hpos : posOf cols rows n = (q + 1, 0, 0) := by
        have hd := div_mod_of_lt (rows * cols) (q + 1) 0 hcap
        rw [Nat.add_zero] at hd
        simp only [posOf, hnq, hd.1, hd.2, Nat.zero_mod, Nat.zero_div]
      refine ⟨q + 1, 1, by rw [hnq], le_refl 1, hcap, ?_, ?_⟩
      · show (packStep cols rows (packAll cols rows n).1).1 = _
        rw [hstate, packStep]
        simp only [hrow, hcol, le_refl, if_true]
        have h := advance_state cols 0 (q + 1 + 1) hc
        simpa using h
      · show (packAll cols rows n).2 ++ [(packStep cols rows (packAll cols rows n).1).2] = _
        rw [hstate, hlist, packStep, List.range_succ, List.map_append]
        simp only [hrow, hcol, le_refl, if_true, List.map_cons, List.map_nil]
        rw [hpos]
        simp
    · -- room remains on the current page: no page break
      have hrow : r / cols < rows := (Nat.div_lt_iff_lt_mul hc).mpr hcase
      have hdm := div_mod_of_lt (rows * cols) q r hcase
      have hpos : posOf cols rows n = (q, r % cols, r / cols) := by
        simp only [posOf, hqr, hdm.1, hdm.2]
      refine ⟨q, r + 1, by rw [hqr]; ring, Nat.le_add_left 1 r,
        Nat.succ_le_of_lt hcase, ?_, ?_⟩
      · show (packStep cols rows (packAll cols rows n).1).1 = _
        rw [hstate, packStep]
        simp only [Nat.not_le.mpr hrow, if_false]
        exact advance_state cols r (q + 1) hc
      · show (packAll cols rows n).2 ++ [(packStep cols rows (packAll cols rows n).1).2] = _
        rw [hstate, hlist, packStep, List.range_succ, List.map_append]
        simp only [Nat.not_le.mpr hrow, if_false, List.map_cons, List.map_nil,
          Nat.add_sub_cancel]
        rw [hpos]

/-! ## Image preprocessor (downscaleForPdf, pdf.ts lines 228–277)

The pixel geometry and encoding choice of `downscaleForPdf`: the raster
drawing itself is opaque, but the output dimensions and mime type are pure
functions of the decoded dimensions `(w, h)`, the requested `maxSide` and
the source file's type. `Math.round` is `round` (round-half-up; all values
here are non-negative, where this agrees with JavaScript). -/

structure ProcessedMeta where
  width : ℕ
  height : ℕ
  mimeType : String
  deriving DecidableEq

/-- `Math.min(1, maxSide / Math.max(width, height))` (pdf.ts line 232). -/
def dsRatio (w h maxSide : ℕ) : ℚ := min 1 ((maxSide : ℚ) / ((max w h : ℕ) : ℚ))

/-- `Math.max(1, Math.round(width * ratio))` (pdf.ts line 233). -/
def targetWidth (w h maxSide : ℕ) : ℕ :=
  max 1 (round ((w : ℚ) * dsRatio w h maxSide)).toNat

/-- `Math.max(1, Math.round(height * ratio))` (pdf.ts line 234). -/
def targetHeight (w h maxSide : ℕ) : ℕ :=
  max 1 (round ((h : ℚ) * dsRatio w h maxSide)).toNat

/-- `file.type === "image/png" ? "image/png" : "image/jpeg"` (pdf.ts line 250). -/
def outputMimeType (fileType : String) : String :=
  if fileType = "image/png" then "image/png" else "image/jpeg"

/-- The quality argument passed to `canvas.toBlob` (pdf.ts line 261):
the requested quality for JPEG, `undefined` for PNG. -/
def encodeQuality (fileType : String) (quality : ℚ) : Option ℚ :=
  if outputMimeType fileType = "image/jpeg" then some quality else none

/-- The observable result record of `downscaleForPdf` (pdf.ts lines 271–276),
with the opaque encoded bytes elided. -/
def downscaleForPdf (w h : ℕ) (fileType : String) (maxSide : ℕ) : ProcessedMeta :=
  ProcessedMeta.mk (targetWidth w h maxSide) (targetHeight w h maxSide)
    (outputMimeType fileType)

lemma dsRatio_of_le (w h m : ℕ) (hwh : 1 ≤ max w h) (hle : max w h ≤ m) :
    dsRatio w h m = 1 := by
  have hM : (0 : ℚ) < ((max w h : ℕ) : ℚ) := by exact_mod_cast hwh
  rw [dsRatio, min_eq_left]
  rw [le_div_iff₀ hM, one_mul]
  exact_mod_cast hle

lemma dsRatio_of_gt (w h m : ℕ) (hgt : m < max w h) :
    dsRatio w h m = (m : ℚ) / ((max w h : ℕ) : ℚ) := by
  have hM : (0 : ℚ) < ((max w h : ℕ) : ℚ) := by
    exact_mod_cast lt_of_le_of_lt (Nat.zero_le m) hgt
  rw [dsRatio, min_eq_right]
  rw [div_le_one hM]
  exact_mod_cast le_of_lt hgt

lemma target_dim_eq (d w h m : ℕ) (hd : 1 ≤ d) (hwh : 1 ≤ max w h)
    (hle : max w h ≤ m) :
    max 1 (round ((d : ℚ) * dsRatio w h m)).toNat = d := by
  rw [dsRatio_of_le w h m hwh hle, mul_one, round_natCast, Int.toNat_natCast,
    max_eq_right hd]

lemma target_dim_le (d w h m : ℕ) (hd : 1 ≤ d) (hwh : 1 ≤ max w h)
    (hm : 1 ≤ m) (hdle : d ≤ max w h) :
    max 1 (round ((d : ℚ) * dsRatio w h m)).toNat ≤ m := by
  by_cases hle : max w h ≤ m
  · rw [target_dim_eq d w h m hd hwh hle]
    exact le_trans hdle hle
  · push_neg at hle
    have hM : (0 : ℚ) < ((max w h : ℕ) : ℚ) := by
      exact_mod_cast lt_of_le_of_lt (Nat.zero_le m) hle
    have hcast : ((d : ℕ) : ℚ) ≤ ((max w h : ℕ) : ℚ) := by exact_mod_cast hdle
    have hval : (d : ℚ) * dsRatio w h m ≤ (m : ℚ) := by
      rw [dsRatio_of_gt w h m hle]
      calc (d : ℚ) * ((m : ℚ) / ((max w h : ℕ) : ℚ))
          ≤ ((max w h : ℕ) : ℚ) * ((m : ℚ) / ((max w h : ℕ) : ℚ)) :=
            mul_le_mul_of_nonneg_right hcast (by positivity)
        _ = (m : ℚ) := by rw [mul_comm, div_mul_cancel₀ _ (ne_of_gt hM)]
    have hround : round ((d : ℚ) * dsRatio w h m) ≤ (m : ℤ) := by
      rw [round_eq]
      have hfl : ⌊(d : ℚ) * dsRatio w h m + 1 / 2⌋ ≤ ⌊(m : ℚ) + 1 / 2⌋ :=
        Int.floor_le_floor (by linarith)
      have hmf : ⌊(m : ℚ) + 1 / 2⌋ = (m : ℤ) := by rw [← round_eq, round_natCast]
      rw [hmf] at hfl
      exact hfl
    exact max_le hm (by exact_mod_cast Int.toNat_le.mpr hround)

/-! ## Cell placement of one image (generatePdf, pdf.ts lines 104–118)

`cw`/`ch` are the cell dimensions, `imgW`/`imgH` the embedded image's
dimensions, `g` the gutter in points. -/

/-- `x = leftPaddingPt + col * (cellWidth + gutterPt)` (pdf.ts line 104). -/
def cellX (leftPad cw g : ℚ) (col : ℕ) : ℚ := leftPad + (col : ℚ) * (cw + g)

/-- `baseY = (pageHeight - headerSpace) - verticalPaddingPt - cellHeight - row * (cellHeight + gutterPt)`
(pdf.ts line 105). -/
def cellBaseY (pageH hdrSpace verticalPad ch g : ℚ) (row : ℕ) : ℚ :=
  (pageH - hdrSpace) - verticalPad - ch - (row : ℚ) * (ch + g)

/-- `scale = Math.min(cellWidth / embedded.width, cellHeight / embedded.height)`
(pdf.ts lines 106–109). -/
def drawScale (cw ch imgW imgH : ℚ) : ℚ := min (cw / imgW) (ch / imgH)

/-- `drawWidth = embedded.width * scale` (pdf.ts line 110). -/
def drawWidth (cw ch imgW imgH : ℚ) : ℚ := imgW * drawScale cw ch imgW imgH

/-- `drawHeight = embedded.height * scale` (pdf.ts line 111). -/
def drawHeight (cw ch imgW imgH : ℚ) : ℚ := imgH * drawScale cw ch imgW imgH

/-- The `x` passed to `page.drawImage`: `x + (cellWidth - drawWidth) / 2`
(pdf.ts line 114). -/
def drawX (x cw ch imgW imgH : ℚ) : ℚ := x + (cw - drawWidth cw ch imgW imgH) / 2

/-- The `y` passed to `page.drawImage`: `baseY + (cellHeight - drawHeight) / 2`
(pdf.ts line 115). -/
def drawY (baseY cw ch imgW imgH : ℚ) : ℚ :=
  baseY + (ch - drawHeight cw ch imgW imgH) / 2

/-! ## Download-name cleanup (generatePdf, pdf.ts lines 210–213) -/

/-- `fileName.trim().length ? fileName.trim() : "risultato.pdf"` (pdf.ts line 210). -/
def cleanedName (fileName : String) : String :=
  if (jsTrim fileName).length ≠ 0 then jsTrim fileName else "risultato.pdf"

/-- `cleanedName.endsWith(".pdf") ? cleanedName : cleanedName + ".pdf"`
(pdf.ts lines 211–213). -/
def downloadName (fileName : String) : String :=
  if jsEndsWith (cleanedName fileName) ".pdf" then cleanedName fileName
  else cleanedName fileName ++ ".pdf"

/-! ## Decoration pass (generatePdf, pdf.ts lines 139–202)

One page's decorations, as the ordered list of draw operations the
`forEach` body emits for a page with 0-based `index`. Font metrics
(`font.widthOfTextAtSize`) are opaque, so the text-width function is a
parameter `widthOf : text → size → width`. The embedded logo, when
present, is its `(width, height)` pair. -/

inductive DecorOp where
  | text (content : String) (x y size : ℚ)
  | image (x y w h : ℚ)
  deriving DecidableEq

/-- `logoWidth`: 0 without a logo, else `logo.width * ((headerFontSize * 3) / logo.height)`
(pdf.ts lines 161–167, with `headerFontSize = 8`). -/
def decorLogoWidth (logo : Option (ℚ × ℚ)) : ℚ :=
  match logo with
  | none => 0
  | some (w, h) => w * ((8 * 3) / h)

/-- `logoHeight`: 0 without a logo, else `logo.height * ((headerFontSize * 3) / logo.height)`
(pdf.ts lines 161–167). -/
def decorLogoHeight (logo : Option (ℚ × ℚ)) : ℚ :=
  match logo with
  | none => 0
  | some (_, h) => h * ((8 * 3) / h)

/-- The draw operations of the decoration pass for one page (pdf.ts
lines 142–202): footer text when `footerText.trim()` is truthy, header
(logo then text) when `headerText.trim()` is truthy, and the page number
`startingPageNumber + index` right-aligned 20pt from the right edge at
`y = 20`, unconditionally. -/
def decoratePage (pageWidth pageHeight leftPad rightPad : ℚ)
    (widthOf : String → ℚ → ℚ) (headerText footerText : String)
    (logo : Option (ℚ × ℚ)) (startingPageNumber : ℤ) (index : ℕ) : List DecorOp :=
  let footerOps : List DecorOp :=
    if jsTrim footerText ≠ "" then
      let tw := widthOf footerText 8
      let aw := pageWidth - leftPad - rightPad
      [DecorOp.text footerText (leftPad + (aw - tw) / 2) 20 8]
    else []
  let headerOps : List DecorOp :=
    if jsTrim headerText ≠ "" then
      let headerY := pageHeight - 20
      let tw := widthOf headerText 8
      let lw := decorLogoWidth logo
      let lh := decorLogoHeight logo
      let totalWidth := lw + (if 0 < lw then 5 else 0) + tw
      let aw := pageWidth - leftPad - rightPad
      let startX := leftPad + (aw - totalWidth) / 2
      let logoOps : List DecorOp :=
        match logo with
        | some _ => [DecorOp.image startX (headerY - lh / 2) lw lh]
        | none => []
      logoOps ++ [DecorOp.text headerText (startX + lw + (if 0 < lw then 5 else 0)) headerY 8]
    else []
  let numText := toString (startingPageNumber + (index : ℤ))
  (footerOps ++ headerOps)
    ++ [DecorOp.text numText (pageWidth - widthOf numText 8 - 20) 20 8]

/-! ## Export control flow (generatePdf, pdf.ts lines 44–46 and 204–226)

The export's observable effect, as the ordered list of actions it
performs: state mutations (`setIsBuilding`, `setStatus`), document
creation, and the triggered download. Status strings are abstracted into
an inductive type, one constructor per distinct message of the source.
Failure is modelled by `failAt` (the first image whose decode/embed/encode
throws, if any) and `saveFails` (whether `pdfDoc.save()` throws); the
`try`/`catch`/`finally` of lines 48–225 maps the thrown cases to the
generic error status, and the `finally` always appends
`setIsBuilding(false)`. The logo-free path is modelled (`logo` absent). -/

inductive Status where
  /-- `"Preparazione..."` (line 46). -/
  | preparing
  /-- `` `Immagine ${i + 1} di ${uploads.length}...` `` (line 91). -/
  | image (i n : ℕ)
  /-- `"Sto generando il PDF..."` (line 204). -/
  | generating
  /-- `` `PDF pronto (${...} MB).` `` (line 217). -/
  | ready (sizeMB : String)
  /-- the generic failure message of lines 220–222. -/
  | error
  deriving DecidableEq

inductive Act where
  | setBuilding (b : Bool)
  | setStatus (s : Status)
  | createDoc
  | download (name : String)
  deriving DecidableEq

/-- The per-image progress statuses emitted for images `0, …, k-1` of `n`
(pdf.ts line 91). -/
def imageStatuses (n k : ℕ) : List Act :=
  (List.range k).map (fun i => Act.setStatus (Status.image (i + 1) n))

/-- Actions of the `try` block when no image processing throws: document
creation, all image statuses, the `"Sto generando"` status, then — unless
`pdfDoc.save()` throws — the download and the final status. The boolean
reports whether the block ran to completion. -/
def tryActsOk (n : ℕ) (saveFails : Bool) (dn sizeMB : String) : List Act × Bool :=
  let pre := Act.createDoc :: (imageStatuses n n ++ [Act.setStatus Status.generating])
  if saveFails then (pre, false)
  else (pre ++ [Act.download dn, Act.setStatus (Status.ready sizeMB)], true)

/-- Actions of the `try` block: when image `i < n` throws, processing
stops right after that image's progress status; otherwise the block runs
as `tryActsOk`. -/
def tryActs (n : ℕ) (failAt : Option ℕ) (saveFails : Bool) (dn sizeMB : String) :
    List Act × Bool :=
  match failAt with
  | some i =>
    if i < n then (Act.createDoc :: imageStatuses n (i + 1), false)
    else tryActsOk n saveFails dn sizeMB
  | none => tryActsOk n saveFails dn sizeMB

/-- The full observable action trace of `generatePdf` on `n` uploads:
the guard `if (!uploads.length || isBuilding) return;` (line 44), then
`setIsBuilding(true)`, the initial status, the `try` block, the `catch`
status on failure, and the `finally` reset of the flag. -/
def generatePdfTrace (n : ℕ) (isBuilding : Bool) (failAt : Option ℕ)
    (saveFails : Bool) (fileName sizeMB : String) : List Act :=
  if n = 0 ∨ isBuilding then []
  else
    let res := tryActs n failAt saveFails (downloadName fileName) sizeMB
    ((Act.setBuilding true :: Act.setStatus Status.preparing :: res.1)
        ++ (if res.2 then [] else [Act.setStatus Status.error]))
      ++ [Act.setBuilding false]

lemma error_not_mem_imageStatuses (n k : ℕ) :
    Act.setStatus Status.error ∉ imageStatuses n k := by
  simp [imageStatuses]

lemma download_not_mem_imageStatuses (name : String) (n k : ℕ) :
    Act.download name ∉ imageStatuses n k := by
  simp [imageStatuses]

/-- On every failing run of the `try` block — an image throws before the
end, or `pdfDoc.save()` throws — the block does not complete, performs no
download, and emits no error status itself (the `catch` does that). -/
lemma tryActs_failure (n : ℕ) (fa : Option ℕ) (sf : Bool) (dn mb : String)
    (hfail : (∃ i, fa = some i ∧ i < n) ∨ sf = true) :
    (tryActs n fa sf dn mb).2 = false
    ∧ (∀ name, Act.download name ∉ (tryActs n fa sf dn mb).1)
    ∧ (tryActs n fa sf dn mb).1.count (Act.setStatus Status.error) = 0 := by
  have hok : sf = true →
      (tryActsOk n sf dn mb).2 = false
      ∧ (∀ name, Act.download name ∉ (tryActsOk n sf dn mb).1)
      ∧ (tryActsOk n sf dn mb).1.count (Act.setStatus Status.error) = 0 := by
    intro hsf
    subst hsf
    rw [tryActsOk]
    refine ⟨rfl, ?_, ?_⟩
    · intro name
      simp [download_not_mem_imageStatuses]
    · simp [List.count_eq_zero, error_not_mem_imageStatuses]
  rcases fa with _ | i
  · have hsf : sf = true := by
      rcases hfail with ⟨i, hi, _⟩ | h
      · exact absurd hi (by simp)
      · exact h
    simpa [tryActs] using hok hsf
  · by_cases hi : i < n
    · simp only [tryActs, hi, if_true]
      refine ⟨by simp, ?_, ?_⟩
      · intro name
        simp [download_not_mem_imageStatuses]
      · simp [List.count_eq_zero, error_not_mem_imageStatuses]
    · have hsf : sf = true := by
        rcases hfail with ⟨j, hj, hjn⟩ | h
        · injection hj with hij
          subst hij
          exact absurd hjn hi
        · exact h
      simpa [tryActs, hi] using hok hsf

/-- Shape of a trace that passes the in-flight/empty guard. -/
lemma trace_shape (n : ℕ) (fa : Option ℕ) (sf : Bool) (fn mb : String)
    (hn : n ≠ 0) :
    generatePdfTrace n false fa sf fn mb
      = ((Act.setBuilding true :: Act.setStatus Status.preparing
            :: (tryActs n fa sf (downloadName fn) mb).1)
          ++ (if (tryActs n fa sf (downloadName fn) mb).2 then []
              else [Act.setStatus Status.error]))
        ++ [Act.setBuilding false] := by
  rw [generatePdfTrace, if_neg (by simp [hn])]

end GluePictures

namespace GluePictures

/-- C1: the packer derives `cellWidth`, `cellHeight`, `rowsPerPage` and
`headerSpace` exactly as the spec states, with `columns` clamped to at
least 1 first; and for every `columns ≥ 1` the clamp is the identity, so
the unclamped formula holds; `cellWidth` is never below 40. -/
theorem c1_geometry (pw ph lp rp vp g : ℚ) (columns : ℤ) (ht : String)
    (hc : 1 ≤ columns) :
    cellWidth pw lp rp g columns
        = max 40 ((pw - lp - rp - g * ((columns : ℚ) - 1)) / (columns : ℚ))
    ∧ cellHeight pw lp rp g columns = cellWidth pw lp rp g columns
    ∧ rowsPerPage pw ph lp rp vp g columns ht
        = max 1 (⌊(ph - headerSpace ht - 2 * vp + g)
            / (cellHeight pw lp rp g columns + g)⌋)
    ∧ headerSpace ht = (if jsTrim ht ≠ "" then 40 else 0)
    ∧ 40 ≤ cellWidth pw lp rp g columns := by
  have hsc : safeColumns columns = columns := max_eq_right hc
  refine ⟨?_, rfl, ?_, rfl, le_max_left _ _⟩
  · rw [cellWidth, hsc]
  · rw [rowsPerPage]
    ring_nf

/-- Witness for `c1_geometry` at a concrete A4-like geometry. -/
theorem c1_geometry_witness :
    cellWidth 595 10 10 5 3 = max 40 ((595 - 10 - 10 - 5 * ((3 : ℚ) - 1)) / (3 : ℚ))
    ∧ cellHeight 595 10 10 5 3 = cellWidth 595 10 10 5 3
    ∧ rowsPerPage 595 842 10 10 10 5 3 ""
        = max 1 (⌊(842 - headerSpace "" - 2 * 10 + 5) / (cellHeight 595 10 10 5 3 + 5)⌋)
    ∧ headerSpace "" = (if jsTrim "" ≠ "" then 40 else 0)
    ∧ 40 ≤ cellWidth 595 10 10 5 3 :=
  c1_geometry 595 842 10 10 10 5 3 "" (by decide)

/-- C2: for every non-empty sequence of `n` images, with
`capacity = rowsPerPage * columns`, the loop produces exactly
`ceil(n / capacity)` pages (written `(n + capacity - 1) / capacity` in
natural-number division); the cursor advances left-to-right then
top-to-bottom, image `i` landing on page `i / capacity` at column
`(i % capacity) % columns`, row `(i % capacity) / columns`; a step creates
a new page exactly when `row ≥ rowsPerPage`; and 7 images with 3 columns
and 2 rows per page produce 2 pages with the 7th image alone on the second
page at `(col = 0, row = 0)`. -/
theorem c2_pagination (cols rows n : ℕ) (hc : 1 ≤ cols) (hrw : 1 ≤ rows)
    (hn : 1 ≤ n) :
    (packAll cols rows n).1.pages = (n + rows * cols - 1) / (rows * cols)
    ∧ (packAll cols rows n).2 = (List.range n).map (posOf cols rows)
    ∧ (∀ s : PackState, (packStep cols rows s).1.pages
        = s.pages + (if rows ≤ s.row then 1 else 0))
    ∧ (packAll 3 2 7).1.pages = 2
    ∧ (packAll 3 2 7).2
        = [(0,0,0), (0,1,0), (0,2,0), (0,0,1), (0,1,1), (0,2,1), (1,0,0)] := by
  obtain ⟨q, r, hqr, hr1, hrcap, hstate, hlist⟩ := packAll_inv cols rows hc hrw n hn
  refine ⟨?_, hlist, ?_, by decide, by decide⟩
  · have hsub : n + rows * cols - 1 = (q + 1) * (rows * cols) + (r - 1) := by
      rw [hqr, Nat.add_mul, Nat.one_mul]
      generalize rows * cols = b at hrcap ⊢
      generalize q * b = a
      omega
    have hrlt : r - 1 < rows * cols :=
      lt_of_lt_of_le (Nat.sub_lt (by omega) one_pos) hrcap
    rw [hstate, hsub, (div_mod_of_lt (rows * cols) (q + 1) (r - 1) hrlt).1]
  · intro s
    rw [packStep]
    by_cases h : rows ≤ s.row <;> simp [h, apply_ite PackState.pages]

/-- Witness for `c2_pagination` at the spec's 7-image scenario. -/
theorem c2_pagination_witness :
    (packAll 3 2 7).1.pages = (7 + 2 * 3 - 1) / (2 * 3)
    ∧ (packAll 3 2 7).2 = (List.range 7).map (posOf 3 2) :=
  ⟨(c2_pagination 3 2 7 (by decide) (by decide) (by decide)).1,
   (c2_pagination 3 2 7 (by decide) (by decide) (by decide)).2.1⟩

/-- C3: for every decoded image with both pixel dimensions at least 1 and
every `maxSide ≥ 1`, the preprocessor computes
`ratio = min(1, maxSide / max(w, h))`,
`targetWidth = max(1, round(w * ratio))` and
`targetHeight = max(1, round(h * ratio))` (these formulas also express the
aspect-ratio preservation up to rounding); hence
`max(outW, outH) ≤ maxSide`, and the image is never upscaled: the output
dimensions equal `(w, h)` whenever `max(w, h) ≤ maxSide`. -/
theorem c3_downscale (w h m : ℕ) (hw : 1 ≤ w) (hh : 1 ≤ h) (hm : 1 ≤ m) :
    dsRatio w h m = min 1 ((m : ℚ) / ((max w h : ℕ) : ℚ))
    ∧ targetWidth w h m = max 1 (round ((w : ℚ) * dsRatio w h m)).toNat
    ∧ targetHeight w h m = max 1 (round ((h : ℚ) * dsRatio w h m)).toNat
    ∧ max (targetWidth w h m) (targetHeight w h m) ≤ m
    ∧ (max w h ≤ m → targetWidth w h m = w ∧ targetHeight w h m = h) := by
  have hwh : 1 ≤ max w h := le_trans hw (le_max_left w h)
  refine ⟨rfl, rfl, rfl, ?_, ?_⟩
  · exact max_le
      (target_dim_le w w h m hw hwh hm (le_max_left w h))
      (target_dim_le h w h m hh hwh hm (le_max_right w h))
  · intro hle
    exact ⟨target_dim_eq w w h m hw hwh hle, target_dim_eq h w h m hh hwh hle⟩

/-- Witness for `c3_downscale` at a 3×2 image with `maxSide = 5`. -/
theorem c3_downscale_witness :
    max (targetWidth 3 2 5) (targetHeight 3 2 5) ≤ 5
    ∧ (max 3 2 ≤ 5 → targetWidth 3 2 5 = 3 ∧ targetHeight 3 2 5 = 2) :=
  ⟨(c3_downscale 3 2 5 (by decide) (by decide) (by decide)).2.2.2.1,
   (c3_downscale 3 2 5 (by decide) (by decide) (by decide)).2.2.2.2⟩

/-- C9: the preprocessor's output mime type is `"image/png"` exactly when
the source file's type is `"image/png"`, and `"image/jpeg"` otherwise, in
which case the requested quality is passed to the encoder; a 3200×1600
source with `maxSide = 1600` yields a 1600×800 output, PNG if the source
was PNG, else JPEG. -/
theorem c9_mime (ft : String) (q : ℚ) :
    (outputMimeType ft = "image/png" ↔ ft = "image/png")
    ∧ (ft ≠ "image/png" → outputMimeType ft = "image/jpeg" ∧ encodeQuality ft q = some q)
    ∧ (ft = "image/png" → encodeQuality ft q = none)
    ∧ downscaleForPdf 3200 1600 "image/png" 1600
        = ProcessedMeta.mk 1600 800 "image/png"
    ∧ downscaleForPdf 3200 1600 "image/jpeg" 1600
        = ProcessedMeta.mk 1600 800 "image/jpeg" := by
  have hratio : dsRatio 3200 1600 1600 = 1 / 2 := by
    rw [dsRatio]
    norm_num
  have hw : targetWidth 3200 1600 1600 = 1600 := by
    rw [targetWidth, hratio]
    push_cast
    rw [show (3200 : ℚ) * (1 / 2) = (1600 : ℚ) by norm_num, round_ofNat]
    decide
  have hht : targetHeight 3200 1600 1600 = 800 := by
    rw [targetHeight, hratio]
    push_cast
    rw [show (1600 : ℚ) * (1 / 2) = (800 : ℚ) by norm_num, round_ofNat]
    decide
  refine ⟨?_, ?_, ?_, ?_, ?_⟩
  · constructor
    · intro hpng
      by_cases hft : ft = "image/png"
      · exact hft
      · rw [outputMimeType, if_neg hft] at hpng
        exact absurd hpng (by decide)
    · intro hft
      rw [outputMimeType, if_pos hft]
  · intro hft
    rw [outputMimeType, if_neg hft]
    refine ⟨rfl, ?_⟩
    rw [encodeQuality, outputMimeType, if_neg hft, if_pos rfl]
  · intro hft
    rw [encodeQuality, outputMimeType, if_pos hft, if_neg (by decide : ¬("image/png" : String) = "image/jpeg")]
  · rw [downscaleForPdf, hw, hht]
    simp [outputMimeType]
  · rw [downscaleForPdf, hw, hht]
    simp [outputMimeType]

/-- Witness for `c9_mime` at a JPEG source. -/
theorem c9_mime_witness :
    outputMimeType "image/jpeg" = "image/jpeg"
    ∧ encodeQuality "image/jpeg" (17 / 20) = some (17 / 20) :=
  (c9_mime "image/jpeg" (17 / 20)).2.1 (by decide)

/-- C4: the image placed at cursor `(col, row)` has cell origin
`x = leftPad + col*(cellWidth+gutter)` and
`y = (pageHeight - headerSpace) - verticalPad - cellHeight - row*(cellHeight+gutter)`;
it is drawn at the uniform scale `min(cellWidth/imgW, cellHeight/imgH)`,
so the drawn width and height never exceed the cell dimensions, the drawn
aspect ratio equals the embedded image's (`drawW * imgH = drawH * imgW`),
and the image is centered in the cell: the left and right margins inside
the cell are equal, as are the bottom and top margins. -/
theorem c4_cell_placement (lp g ph hs vp x baseY cw ch imgW imgH : ℚ)
    (col row : ℕ) (hiw : 0 < imgW) (hih : 0 < imgH) :
    cellX lp cw g col = lp + (col : ℚ) * (cw + g)
    ∧ cellBaseY ph hs vp ch g row = (ph - hs) - vp - ch - (row : ℚ) * (ch + g)
    ∧ drawWidth cw ch imgW imgH ≤ cw
    ∧ drawHeight cw ch imgW imgH ≤ ch
    ∧ drawWidth cw ch imgW imgH * imgH = drawHeight cw ch imgW imgH * imgW
    ∧ drawX x cw ch imgW imgH - x
        = (x + cw) - (drawX x cw ch imgW imgH + drawWidth cw ch imgW imgH)
    ∧ drawY baseY cw ch imgW imgH - baseY
        = (baseY + ch) - (drawY baseY cw ch imgW imgH + drawHeight cw ch imgW imgH) := by
  refine ⟨rfl, rfl, ?_, ?_, ?_, ?_, ?_⟩
  · rw [drawWidth]
    calc imgW * drawScale cw ch imgW imgH
        ≤ imgW * (cw / imgW) :=
          mul_le_mul_of_nonneg_left (min_le_left _ _) hiw.le
      _ = cw := by rw [mul_comm, div_mul_cancel₀ _ (ne_of_gt hiw)]
  · rw [drawHeight]
    calc imgH * drawScale cw ch imgW imgH
        ≤ imgH * (ch / imgH) :=
          mul_le_mul_of_nonneg_left (min_le_right _ _) hih.le
      _ = ch := by rw [mul_comm, div_mul_cancel₀ _ (ne_of_gt hih)]
  · rw [drawWidth, drawHeight]
    ring
  · rw [drawX]
    ring
  · rw [drawY]
    ring

/-- Witness for `c4_cell_placement` at a 50×25 image in a 100×100 cell. -/
theorem c4_cell_placement_witness :
    drawWidth 100 100 50 25 ≤ 100
    ∧ drawHeight 100 100 50 25 ≤ 100
    ∧ drawWidth 100 100 50 25 * 25 = drawHeight 100 100 50 25 * 50 :=
  ⟨(c4_cell_placement 10 5 800 0 10 0 0 100 100 50 25 1 1 (by norm_num)
      (by norm_num)).2.2.1,
   (c4_cell_placement 10 5 800 0 10 0 0 100 100 50 25 1 1 (by norm_num)
      (by norm_num)).2.2.2.1,
   (c4_cell_placement 10 5 800 0 10 0 0 100 100 50 25 1 1 (by norm_num)
      (by norm_num)).2.2.2.2.1⟩

/-- C5: the download-name cleanup never duplicates the `.pdf` extension:
whenever the trimmed file name already ends in `.pdf` the name is used as
is, so `"a.pdf"` and `"a"` yield the same download name `"a.pdf"`; an
empty or whitespace-only name falls back to the default
`"risultato.pdf"`. -/
theorem c5_filename (s : String) (h : jsEndsWith (jsTrim s) ".pdf" = true) :
    downloadName s = jsTrim s
    ∧ downloadName "a.pdf" = "a.pdf"
    ∧ downloadName "a" = "a.pdf"
    ∧ (∀ t : String, jsTrim t = "" → downloadName t = "risultato.pdf") := by
  refine ⟨?_, by decide, by decide, ?_⟩
  · have hne : jsTrim s ≠ "" := by
      intro he
      rw [he] at h
      exact absurd h (by decide)
    have hlen : (jsTrim s).length ≠ 0 := fun h0 =>
      hne (String.ext (List.length_eq_zero.mp h0))
    rw [downloadName, cleanedName, if_pos hlen, if_pos h]
  · intro t ht
    rw [downloadName, cleanedName, ht]
    norm_num
    decide

/-- Witness for `c5_filename` at `"x.pdf"` and a whitespace-only name. -/
theorem c5_filename_witness :
    downloadName "x.pdf" = jsTrim "x.pdf"
    ∧ downloadName "  " = "risultato.pdf" :=
  ⟨(c5_filename "x.pdf" (by decide)).1,
   (c5_filename "x.pdf" (by decide)).2.2.2 "  " (by decide)⟩

/-- C6: when both the header text and the footer text trim to the empty
string, the decoration pass draws no header and no footer on any page,
yet still draws exactly the page number `startingPageNumber + index`,
right-aligned 20pt from the right edge at `y = 20`; and for every header,
footer and logo the page-number operation is unconditionally the last
operation on every page. -/
theorem c6_decoration (pw ph lp rp : ℚ) (widthOf : String → ℚ → ℚ)
    (ht ft : String) (logo : Option (ℚ × ℚ)) (start : ℤ) (index : ℕ)
    (hh : jsTrim ht = "") (hf : jsTrim ft = "") :
    decoratePage pw ph lp rp widthOf ht ft logo start index
      = [DecorOp.text (toString (start + (index : ℤ)))
          (pw - widthOf (toString (start + (index : ℤ))) 8 - 20) 20 8]
    ∧ ∀ (ht2 ft2 : String) (logo2 : Option (ℚ × ℚ)),
        (decoratePage pw ph lp rp widthOf ht2 ft2 logo2 start index).getLast?
          = some (DecorOp.text (toString (start + (index : ℤ)))
              (pw - widthOf (toString (start + (index : ℤ))) 8 - 20) 20 8) := by
  constructor
  · simp [decoratePage, hh, hf]
  · intro ht2 ft2 logo2
    simp only [decoratePage]
    rw [List.getLast?_append_of_ne_nil _ (List.cons_ne_nil _ _)]
    rfl

/-- Witness for `c6_decoration` with empty header and whitespace footer. -/
theorem c6_decoration_witness :
    decoratePage 600 800 10 10 (fun _ _ => 0) "" " " none 5 2
      = [DecorOp.text (toString ((5 : ℤ) + ((2 : ℕ) : ℤ)))
          (600 - (fun (_ : String) (_ : ℚ) => (0 : ℚ)) (toString ((5 : ℤ) + ((2 : ℕ) : ℤ))) 8 - 20) 20 8] :=
  (c6_decoration 600 800 10 10 (fun _ _ => 0) "" " " none 5 2
    (by decide) (by decide)).1

/-- C7: at most one export is in flight at a time — a call made while
`isBuilding` is `true` returns at the guard of pdf.ts line 44, performing
no action at all (no state mutation, no document creation, no download),
so the in-progress export's result is unaffected. -/
theorem c7_single_flight (n : ℕ) (b : Bool) (fa : Option ℕ) (sf : Bool)
    (fn mb : String) (hb : b = true) :
    generatePdfTrace n b fa sf fn mb = [] := by
  rw [generatePdfTrace, if_pos (Or.inr hb)]

/-- Witness for `c7_single_flight` with three uploads mid-build. -/
theorem c7_single_flight_witness :
    generatePdfTrace 3 true (some 1) false "a" "0.1" = [] :=
  c7_single_flight 3 true (some 1) false "a" "0.1" rfl

/-- C8: on every run that passes the in-flight guard, the trace always
ends with `setIsBuilding(false)` (the `finally` of pdf.ts line 223); if
any per-image decode/embed/encode step or the final save throws, no
download is triggered and exactly one generic error status is reported;
and on an untroubled run no error status appears. -/
theorem c8_failure_semantics (n : ℕ) (fa : Option ℕ) (sf : Bool)
    (fn mb : String) (hn : 1 ≤ n) :
    (generatePdfTrace n false fa sf fn mb).getLast? = some (Act.setBuilding false)
    ∧ ((∃ i, fa = some i ∧ i < n) ∨ sf = true →
        (∀ name, Act.download name ∉ generatePdfTrace n false fa sf fn mb)
        ∧ (generatePdfTrace n false fa sf fn mb).count (Act.setStatus Status.error) = 1)
    ∧ (fa = none → sf = false →
        (generatePdfTrace n false fa sf fn mb).count (Act.setStatus Status.error) = 0) := by
  have hn0 : n ≠ 0 := by omega
  rw [trace_shape n fa sf fn mb hn0]
  refine ⟨?_, ?_, ?_⟩
  · rw [List.getLast?_append_of_ne_nil _ (List.cons_ne_nil _ _)]
    rfl
  · intro hfail
    obtain ⟨h2, hmem, hcnt⟩ := tryActs_failure n fa sf (downloadName fn) mb hfail
    rw [h2]
    constructor
    · intro name
      simp [hmem name]
    · simp [List.count_append, hcnt]
  · intro hfa hsf
    subst hfa
    subst hsf
    simp [tryActs, tryActsOk, List.count_append, List.count_eq_zero,
      error_not_mem_imageStatuses]

/-- Witness for `c8_failure_semantics`: one upload whose processing
throws. -/
theorem c8_failure_semantics_witness :
    (generatePdfTrace 1 false (some 0) false "a" "0.1").getLast?
      = some (Act.setBuilding false)
    ∧ (generatePdfTrace 1 false (some 0) false "a" "0.1").count
        (Act.setStatus Status.error) = 1 :=
  ⟨(c8_failure_semantics 1 (some 0) false "a" "0.1" (by decide)).1,
   ((c8_failure_semantics 1 (some 0) false "a" "0.1" (by decide)).2.1
     (Or.inl ⟨0, rfl, by decide⟩)).2⟩

/-- C10: with an empty uploads list the call returns at the guard of
pdf.ts line 44 regardless of any other input: the trace is empty, so no
document is created, no download is triggered, and neither the in-flight
flag nor the status string is touched — the empty-input policy is a
complete no-op, not an empty page. -/
theorem c10_empty_noop (b : Bool) (fa : Option ℕ) (sf : Bool)
    (fn mb : String) :
    generatePdfTrace 0 b fa sf fn mb = [] := by
  rw [generatePdfTrace, if_pos (Or.inl rfl)]

end GluePictures
